import Mathlib

/-
Verification of the goshare interactive shell: a command-pattern dispatcher
(Invoker, three command variants, a lazily-initialized connector handle) over
an external IPFS engine, plus the engine adapter (plugin setup, CreateNode,
GetFile). The shell state is threaded explicitly; the external engine calls
are oracle functions supplied as parameters.
-/

namespace GoShare

/-- A Go `error` value: `none` is `nil`, `some msg` is a non-nil error whose
`Error()` string is `msg`. -/
abbrev GoError := Option String

/-- Go `ipfs.Connector`: the engine session (`Api`, `Node`, `RepoPath`). The
opaque `icore.CoreAPI` and `*core.IpfsNode` are modelled as identifiers. -/
structure Connector where
  api : Nat
  node : Nat
  repoPath : String
deriving Repr, DecidableEq

/-- Go `IpfsConnector`: the connector handle; `Connector` is a nilable pointer,
absent until a config command succeeds. -/
structure IpfsConnector where
  connector : Option Connector
deriving Repr, DecidableEq

/-- Readiness check `isReady` from the spec: whether the session pointer is non-nil. -/
def IpfsConnector.isReady (h : IpfsConnector) : Bool :=
  h.connector.isSome

/-- The three concrete `Command` implementations, as a closed union: each Go
struct captures its string arguments (the shared `*IpfsConnector` pointer is
threaded as explicit state instead). -/
inductive Command where
  | config (repository : String)
  | add (filePath : String)
  | get (cid : String) (outputPath : String)
deriving Repr, DecidableEq

/-- The external engine entry points used by command execution:
`ipfs.CreateNode`, `Connector.AddFile`, `Connector.GetFile`, as oracles.
`createNode` returns either an error string or a fresh session. -/
structure Engine where
  createNode : String → Except String Connector
  addFile : Connector → String → GoError
  getFile : Connector → String → String → GoError

/-- Method `Execute(ctx)` of each concrete command. Returns the Go error and the
(possibly updated) connector handle.
- config: `ipfs.CreateNode`; on error return it unchanged; on success store
  the session into the handle.
- add/get: fail with "run config command first" when the handle is nil,
  otherwise delegate to the engine. -/
def Command.execute (eng : Engine) (c : Command) (h : IpfsConnector) :
    GoError × IpfsConnector :=
  match c with
  | Command.config repository =>
    match eng.createNode repository with
    | Except.error err => (some err, h)
    | Except.ok conn => (none, { connector := some conn })
  | Command.add filePath =>
    match h.connector with
    | none => (some "run config command first", h)
    | some conn => (eng.addFile conn filePath, h)
  | Command.get cid outputPath =>
    match h.connector with
    | none => (some "run config command first", h)
    | some conn => (eng.getFile conn cid outputPath, h)

/-- Go `Invoker`: holds the one pending command (`nil` when none set). -/
structure Invoker where
  command : Option Command
deriving Repr, DecidableEq

/-- Go `Invoker.SetCommand`: unconditionally overwrite the pending command. -/
def Invoker.setCommand (i : Invoker) (c : Command) : Invoker :=
  { i with command := some c }

/-- Go `Invoker.ExecuteCommand`: error "command not set" when nothing is
pending, otherwise run the pending command's `Execute`. -/
def Invoker.executeCommand (eng : Engine) (i : Invoker) (h : IpfsConnector) :
    GoError × IpfsConnector :=
  match i.command with
  | none => (some "command not set", h)
  | some c => c.execute eng h

/-- Accumulator-style tokenizer underlying `fields`. -/
def fieldsAux : List Char → List Char → List String
  | cur, [] => if cur.isEmpty then [] else [cur.reverse.asString]
  | cur, c :: cs =>
    if c.isWhitespace then
      if cur.isEmpty then fieldsAux [] cs
      else cur.reverse.asString :: fieldsAux [] cs
    else fieldsAux (c :: cur) cs

/-- Go `strings.Fields`: split a string around runs of whitespace, dropping
empty tokens. -/
def fields (s : String) : List String :=
  fieldsAux [] s.data

/-- Outcome of `handleIpfsCommand`. Go slice indexing past the length panics,
which aborts the process; `panicked i` records an out-of-range access at
index `i` of the token slice. `ok e` is a normal return of error `e`. -/
inductive HandleResult where
  | panicked (idx : Nat)
  | ok (err : GoError)
deriving Repr, DecidableEq

/-- Go `handleIpfsCommand`: tokenize the line with `strings.Fields`, switch on
token 0, build the command variant from the argument tokens, hand it to the
invoker, and execute it. Returns the outcome, the connector handle, the
invoker, and the lines printed by the dispatcher itself. Indexing follows the
source exactly: token 0 is read unconditionally; config reads token 1; add
and get check the handle for nil before reading tokens 1 (and 2). -/
def handleIpfsCommand (eng : Engine) (command : String) (ipfsConnector : IpfsConnector)
    (invoker : Invoker) : HandleResult × IpfsConnector × Invoker × List String :=
  match fields command with
  | [] => (HandleResult.panicked 0, ipfsConnector, invoker, [])
  | verb :: args =>
    if verb = "config" then
      match args with
      | [] => (HandleResult.panicked 1, ipfsConnector, invoker, [])
      | repository :: _ =>
        let invoker := invoker.setCommand (Command.config repository)
        let r := invoker.executeCommand eng ipfsConnector
        (HandleResult.ok r.1, r.2, invoker, [])
    else if verb = "add" then
      match ipfsConnector.connector with
      | none => (HandleResult.ok (some "run config command first"), ipfsConnector, invoker, [])
      | some _ =>
        match args with
        | [] => (HandleResult.panicked 1, ipfsConnector, invoker, [])
        | filePath :: _ =>
          let invoker := invoker.setCommand (Command.add filePath)
          let r := invoker.executeCommand eng ipfsConnector
          (HandleResult.ok r.1, r.2, invoker, [])
    else if verb = "get" then
      match ipfsConnector.connector with
      | none => (HandleResult.ok (some "run config command first"), ipfsConnector, invoker, [])
      | some _ =>
        match args with
        | cid :: outputPath :: _ =>
          let invoker := invoker.setCommand (Command.get cid outputPath)
          let r := invoker.executeCommand eng ipfsConnector
          (HandleResult.ok r.1, r.2, invoker, [])
        | args => (HandleResult.panicked (args.length + 1), ipfsConnector, invoker, [])
    else
      (HandleResult.ok none, ipfsConnector, invoker, ["invalid command: " ++ command])

/-- The mutable state owned by `main`: the connector handle and the invoker. -/
structure ShellState where
  handle : IpfsConnector
  invoker : Invoker
deriving Repr, DecidableEq

/-- One outcome of the read-eval-print loop body. -/
inductive LoopOutcome where
  | next (st : ShellState) (out : List String)
  | exited (out : List String)
  | panicked (idx : Nat) (st : ShellState) (out : List String)
deriving Repr, DecidableEq

/-- The fixed help text. -/
def helpLines : List String :=
  ["Available commands:", " - config <repository>", " - add <file-path>",
   " - get <cid> <output-path>", " - exit"]

/-- One iteration of the loop in `main` on the line read from stdin: `help`
and `exit` are handled directly; every other line (including the empty one)
goes to `handleIpfsCommand`, whose non-nil error is printed. -/
def mainStep (eng : Engine) (st : ShellState) (command : String) : LoopOutcome :=
  if command = "help" then LoopOutcome.next st helpLines
  else if command = "exit" then LoopOutcome.exited ["Exiting the app. Goodbye!"]
  else
    match handleIpfsCommand eng command st.handle st.invoker with
    | (HandleResult.panicked i, h, inv, out) =>
      LoopOutcome.panicked i { handle := h, invoker := inv } out
    | (HandleResult.ok e, h, inv, out) =>
      LoopOutcome.next { handle := h, invoker := inv }
        (out ++ (match e with | some msg => [msg] | none => []))

/-- The state reached after one dispatched line (state change only; a Go
panic never mutates the state first, so the pre-panic state is returned). -/
def processLine (eng : Engine) (st : ShellState) (command : String) : ShellState :=
  if command = "help" then st
  else if command = "exit" then st
  else
    let r := handleIpfsCommand eng command st.handle st.invoker
    { handle := r.2.1, invoker := r.2.2.1 }

/-- The state reached after a sequence of input lines. -/
def processLines (eng : Engine) (st : ShellState) (lines : List String) : ShellState :=
  lines.foldl (processLine eng) st

end GoShare

namespace Ipfs

open GoShare

/-- The process-wide `loadPluginsOnce sync.Once` guard: `fired` is whether
`Do` has already run its function (set even when that function errored). -/
structure PluginState where
  fired : Bool
deriving Repr, DecidableEq

/-- The plugin state at process start. -/
def pluginStart : PluginState := { fired := false }

/-- Go `setupPlugins`: run `loadAndInjectPlugins ""` under the once-guard.
`loadResult` is the error `loadAndInjectPlugins` would return if invoked
(an oracle for the real loader). When the guard has already fired, `Do` is
a no-op and the local `onceErr` stays nil, so `nil` is returned. -/
def setupPlugins (loadResult : GoError) (st : PluginState) : GoError × PluginState :=
  if st.fired then (none, st)
  else (loadResult, { fired := true })

/-- The remaining engine entry points `CreateNode` delegates to, as oracles:
`initRepository` (mkdir + config.Init + fsrepo.Init), `buildNode`
(fsrepo.Open + core.NewNode), `newCoreAPI` (coreapi.NewCoreAPI). -/
structure EngineOps where
  initRepository : String → GoError
  buildNode : String → Except String Nat
  newCoreAPI : Nat → Except String Nat

/-- Go `ipfs.CreateNode`: plugin setup, repository init, node build, core API;
each failure is returned immediately (the core-API failure wrapped with
"failed to create ipfs api: "). Returns the result and the plugin state. -/
def CreateNode (ops : EngineOps) (loadResult : GoError) (repository : String)
    (st : PluginState) : Except String Connector × PluginState :=
  let r := setupPlugins loadResult st
  match r.1 with
  | some err => (Except.error err, r.2)
  | none =>
    match ops.initRepository repository with
    | some err => (Except.error err, r.2)
    | none =>
      match ops.buildNode repository with
      | Except.error err => (Except.error err, r.2)
      | Except.ok node =>
        match ops.newCoreAPI node with
        | Except.error err => (Except.error ("failed to create ipfs api: " ++ err), r.2)
        | Except.ok api =>
          (Except.ok { api := api, node := node, repoPath := repository }, r.2)

/-- A content identifier, modelled as a number; `cidUndef` is the zero value
`cid.Cid` that `cid.Decode` returns alongside a non-nil error. -/
abbrev Cid := Nat

/-- The zero value of `cid.Cid`. -/
def cidUndef : Cid := 0

/-- The tail of `GetFile` after the cid is fixed: `Api.Unixfs().Get` on the
cid, then `files.WriteTo` to the output path; each failure returned; on
success print the confirmation. `getOp` and `writeTo` are engine oracles
(file nodes are identifiers). Returns the Go error and the printed lines. -/
def getFromCid (getOp : Cid → Except String Nat) (writeTo : Nat → String → GoError)
    (cidFile : Cid) (outputPath : String) : GoError × List String :=
  match getOp cidFile with
  | Except.error err => (some err, [])
  | Except.ok file =>
    match writeTo file outputPath with
    | some err => (some err, [])
    | none => (none, ["Successfully Wrote file to " ++ outputPath])

/-- Go `Connector.GetFile`: `cidFile, _ := cid.Decode(contentId)` — the decode
error is discarded with the blank identifier, and the zero-value cid is used
when decoding failed — then proceed with `Get` and `WriteTo`. `decode` is the
oracle for `cid.Decode`. -/
def GetFile (decode : String → Except String Cid) (getOp : Cid → Except String Nat)
    (writeTo : Nat → String → GoError) (contentId : String) (outputPath : String) :
    GoError × List String :=
  let cidFile :=
    match decode contentId with
    | Except.ok c => c
    | Except.error _ => cidUndef
  getFromCid getOp writeTo cidFile outputPath

end Ipfs

namespace GoShare

/-- A concrete engine whose node creation always succeeds, for instantiating
the universally quantified theorems. -/
def okEngine : Engine where
  createNode := fun repository => Except.ok { api := 1, node := 1, repoPath := repository }
  addFile := fun _ _ => none
  getFile := fun _ _ _ => none

/-- A concrete engine whose node creation always fails. -/
def failEngine : Engine where
  createNode := fun _ => Except.error "failed to init ephemeral node: lock"
  addFile := fun _ _ => none
  getFile := fun _ _ _ => none

/-- The shell state at process start: nil connector, nothing pending. -/
def startState : ShellState :=
  { handle := { connector := none }, invoker := { command := none } }

/-- The shell state after a successful `config /repo` line on `okEngine`. -/
def stConfigured : ShellState := processLine okEngine startState "config /repo"

/-- A concrete `cid.Decode` oracle that always fails. -/
def badDecode : String → Except String Ipfs.Cid :=
  fun _ => Except.error "selected encoding not supported"

/-- A concrete engine get operation that always succeeds. -/
def okGet : Ipfs.Cid → Except String Nat := fun _ => Except.ok 7

/-- A concrete write operation that always succeeds. -/
def okWrite : Nat → String → GoError := fun _ _ => none

end GoShare


namespace GoShare

/-- Claim C7: calling `ExecuteCommand` on an Invoker with no pending command
returns the "command not set" error (NoCommandSet); it neither crashes nor
succeeds as a no-op, and the handle is untouched. -/
theorem executeCommand_nothing_pending (eng : Engine) (h : IpfsConnector) :
    Invoker.executeCommand eng { command := none } h = (some "command not set", h) := rfl

/-- Claim C9: any sequence of `SetCommand` calls followed by one
`ExecuteCommand` executes exactly the most recently set command: each
`SetCommand` overwrites the slot unconditionally, so the fold ends holding
only the last command and execution delegates to it. -/
theorem setCommand_last_write_wins (eng : Engine) (h : IpfsConnector) (inv : Invoker)
    (cs : List Command) (c : Command) :
    ((cs ++ [c]).foldl Invoker.setCommand inv).executeCommand eng h =
      c.execute eng h := by
  have hfold : (cs ++ [c]).foldl Invoker.setCommand inv = { command := some c } := by
    rw [List.foldl_append]
    rfl
  rw [hfold]
  rfl

/-- Claim C10: the once-guarded plugin setup error is reported at most once
per process: a first `CreateNode` whose plugin load fails returns that error
and marks the guard fired, and every later `setupPlugins` call returns nil
without retrying the load, whatever the load would now produce. -/
theorem plugin_setup_error_reported_once (ops : Ipfs.EngineOps) (err : String)
    (repository : String) (laterLoad : GoError) :
    (Ipfs.CreateNode ops (some err) repository Ipfs.pluginStart).1 = Except.error err ∧
    (Ipfs.CreateNode ops (some err) repository Ipfs.pluginStart).2 = { fired := true } ∧
    Ipfs.setupPlugins laterLoad { fired := true } = (none, { fired := true }) :=
  ⟨rfl, rfl, rfl⟩

/-- Claim C1 (divergence evidence): a recognized verb with too few argument
tokens does not produce a ParseError — the dispatcher indexes the token
slice out of range and the process panics: `config` alone panics at index 1;
after a successful config, `add` alone panics at index 1 and `get` panics at
index 1 or 2 depending on how many tokens are missing. -/
theorem config_missing_arg_panics :
    mainStep okEngine startState "config" = LoopOutcome.panicked 1 startState [] ∧
    mainStep okEngine stConfigured "add" = LoopOutcome.panicked 1 stConfigured [] ∧
    mainStep okEngine stConfigured "get" = LoopOutcome.panicked 1 stConfigured [] ∧
    mainStep okEngine stConfigured "get onlycid" = LoopOutcome.panicked 2 stConfigured [] := by
  refine ⟨rfl, rfl, rfl, rfl⟩

/-- Claim C2 (divergence evidence): an empty or whitespace-only input line is
not looped back to the prompt — `main` dispatches it, `strings.Fields` yields
an empty token slice, and reading token 0 panics (index out of range). -/
theorem empty_line_dispatch_panics :
    mainStep okEngine startState "" = LoopOutcome.panicked 0 startState [] ∧
    mainStep okEngine startState "   " = LoopOutcome.panicked 0 startState [] := by
  refine ⟨rfl, rfl⟩

/-- Claim C3 (counterexample): a Retrieve whose content identifier fails to
decode does NOT surface the decode failure: with an always-failing decode and
a succeeding engine get/write, GetFile returns a nil error and reports
success, so the decode error is dropped, not propagated. -/
theorem getFile_drops_decode_error :
    badDecode "not-a-cid" = Except.error "selected encoding not supported" ∧
    Ipfs.GetFile badDecode okGet okWrite "not-a-cid" "/tmp/out" =
      (none, ["Successfully Wrote file to /tmp/out"]) :=
  ⟨rfl, rfl⟩

/-- Claim C3 (amended): when the content identifier fails to decode, the
decode error is silently discarded: GetFile proceeds exactly as if it had
been given the zero-value cid, and the decode error's content never reaches
the result. -/
theorem getFile_decode_error_ignored (decode : String → Except String Ipfs.Cid)
    (getOp : Ipfs.Cid → Except String Nat) (writeTo : Nat → String → GoError)
    (contentId outputPath : String) (err : String)
    (hd : decode contentId = Except.error err) :
    Ipfs.GetFile decode getOp writeTo contentId outputPath =
      Ipfs.getFromCid getOp writeTo Ipfs.cidUndef outputPath := by
  unfold Ipfs.GetFile
  rw [hd]

/-- Witness for the amended C3 theorem at a concrete failing decode. -/
theorem getFile_decode_error_ignored_witness :
    Ipfs.GetFile badDecode okGet okWrite "not-a-cid" "/tmp/out" =
      Ipfs.getFromCid okGet okWrite Ipfs.cidUndef "/tmp/out" :=
  getFile_decode_error_ignored badDecode okGet okWrite "not-a-cid" "/tmp/out"
    "selected encoding not supported" rfl

end GoShare

namespace GoShare

/-- Claim C4: an add or get line dispatched while the connector handle is
still nil returns the "run config command first" error; the nil check runs
before the argument tokens are read or any variant is constructed, so both
the handle and the invoker's pending command come back unchanged. -/
theorem add_get_before_config_not_configured (eng : Engine) (line : String)
    (args : List String) (h : IpfsConnector) (inv : Invoker)
    (hn : h.connector = none)
    (hf : fields line = "add" :: args ∨ fields line = "get" :: args) :
    handleIpfsCommand eng line h inv =
      (HandleResult.ok (some "run config command first"), h, inv, []) := by
  unfold handleIpfsCommand
  rcases hf with hf | hf <;> rw [hf] <;> simp [hn]

/-- Witness for C4 at a concrete unconfigured state and concrete lines. -/
theorem add_get_before_config_not_configured_witness :
    handleIpfsCommand okEngine "add ./file.txt" { connector := none } { command := none } =
      (HandleResult.ok (some "run config command first"), { connector := none },
        { command := none }, []) :=
  add_get_before_config_not_configured okEngine "add ./file.txt" ["./file.txt"]
    { connector := none } { command := none } rfl (Or.inl (by decide))

/-- Claim C8: a line whose first token is none of config/add/get falls to the
dispatcher's default branch: it prints "invalid command: " followed by the
original input, returns a nil error (success, not an error), and leaves both
the connector handle and the invoker's pending command unchanged. -/
theorem unrecognized_verb_invalid_command (eng : Engine) (line : String) (verb : String)
    (args : List String) (h : IpfsConnector) (inv : Invoker)
    (hf : fields line = verb :: args)
    (h1 : verb ≠ "config") (h2 : verb ≠ "add") (h3 : verb ≠ "get") :
    handleIpfsCommand eng line h inv =
      (HandleResult.ok none, h, inv, ["invalid command: " ++ line]) := by
  unfold handleIpfsCommand
  rw [hf]
  simp [h1, h2, h3]

/-- Witness for C8 at a concrete unrecognized line. -/
theorem unrecognized_verb_invalid_command_witness :
    handleIpfsCommand okEngine "foo bar" { connector := none } { command := none } =
      (HandleResult.ok none, { connector := none }, { command := none },
        ["invalid command: foo bar"]) :=
  unrecognized_verb_invalid_command okEngine "foo bar" "foo" ["bar"]
    { connector := none } { command := none } (by decide)
    (by decide) (by decide) (by decide)

end GoShare

namespace GoShare

/-- Claim C6: executing a Configure variant whose delegated `CreateNode`
call fails returns that error unchanged and leaves the handle unmodified;
on success the returned session is stored; and the Configure variant is the
only command whose execution can change the handle at all. -/
theorem config_failure_propagates_unchanged (eng : Engine) (h : IpfsConnector) :
    (∀ repository err, eng.createNode repository = Except.error err →
        Command.execute eng (Command.config repository) h = (some err, h)) ∧
    (∀ repository conn, eng.createNode repository = Except.ok conn →
        Command.execute eng (Command.config repository) h =
          (none, { connector := some conn })) ∧
    (∀ c : Command, (Command.execute eng c h).2 ≠ h →
        ∃ repository, c = Command.config repository) := by
  refine ⟨?_, ?_, ?_⟩
  · intro repository err hce
    simp [Command.execute, hce]
  · intro repository conn hce
    simp [Command.execute, hce]
  · intro c hne
    cases c with
    | config repository => exact ⟨repository, rfl⟩
    | add filePath =>
      exfalso
      apply hne
      unfold Command.execute
      cases h.connector <;> rfl
    | get cid outputPath =>
      exfalso
      apply hne
      unfold Command.execute
      cases h.connector <;> rfl

/-- Witness for C6 at a concrete failing engine. -/
theorem config_failure_propagates_unchanged_witness :
    Command.execute failEngine (Command.config "/repo") { connector := none } =
      (some "failed to init ephemeral node: lock", { connector := none }) :=
  (config_failure_propagates_unchanged failEngine { connector := none }).1
    "/repo" "failed to init ephemeral node: lock" rfl

end GoShare

namespace GoShare

/-- Executing any single command never turns a ready handle back into a nil
one: add/get leave the handle alone, config either leaves it alone (failure)
or stores a fresh session (success). -/
theorem execute_ready_mono (eng : Engine) (c : Command) (h : IpfsConnector)
    (hr : h.isReady = true) : (Command.execute eng c h).2.isReady = true := by
  cases c with
  | config repository =>
    simp only [Command.execute]
    split
    · exact hr
    · simp [IpfsConnector.isReady]
  | add filePath =>
    simp only [Command.execute]
    split
    · exact hr
    · exact hr
  | get cid outputPath =>
    simp only [Command.execute]
    split
    · exact hr
    · exact hr

/-- Invoker execution never clears a ready handle. -/
theorem executeCommand_ready_mono (eng : Engine) (i : Invoker) (h : IpfsConnector)
    (hr : h.isReady = true) : (Invoker.executeCommand eng i h).2.isReady = true := by
  unfold Invoker.executeCommand
  split
  · exact hr
  · exact execute_ready_mono eng _ h hr

/-- Dispatching any single line never clears a ready handle. -/
theorem handle_ready_mono (eng : Engine) (line : String) (h : IpfsConnector)
    (inv : Invoker) (hr : h.isReady = true) :
    (handleIpfsCommand eng line h inv).2.1.isReady = true := by
  unfold handleIpfsCommand
  split
  · exact hr
  · split_ifs
    all_goals repeat' split
    all_goals
      first
        | exact hr
        | exact executeCommand_ready_mono eng _ h hr

/-- One loop iteration never clears a ready handle. -/
theorem processLine_ready_mono (eng : Engine) (st : ShellState) (line : String)
    (hr : st.handle.isReady = true) : (processLine eng st line).handle.isReady = true := by
  unfold processLine
  split_ifs
  · exact hr
  · exact hr
  · exact handle_ready_mono eng line st.handle st.invoker hr

/-- No sequence of loop iterations ever clears a ready handle. -/
theorem processLines_ready_mono (eng : Engine) (lines : List String) (st : ShellState)
    (hr : st.handle.isReady = true) :
    (processLines eng st lines).handle.isReady = true := by
  induction lines generalizing st with
  | nil => exact hr
  | cons l ls ih =>
    exact ih (processLine eng st l) (processLine_ready_mono eng st l hr)

end GoShare

namespace GoShare

/-- Claim C5: a config line that dispatches successfully leaves the handle
ready, and once the handle is ready no later sequence of input lines —
failed or repeated configs, adds, gets, unrecognized verbs — ever clears the
stored session: `isReady` stays true for the rest of the process. -/
theorem config_success_ready_persists (eng : Engine) (line : String) (st : ShellState)
    (lines : List String) :
    (∀ repository rest, fields line = "config" :: repository :: rest →
        (handleIpfsCommand eng line st.handle st.invoker).1 = HandleResult.ok none →
        (handleIpfsCommand eng line st.handle st.invoker).2.1.isReady = true) ∧
    (st.handle.isReady = true → (processLines eng st lines).handle.isReady = true) := by
  constructor
  · intro repository rest hf hok
    unfold handleIpfsCommand at hok ⊢
    rw [hf] at hok ⊢
    simp only [Invoker.setCommand, Invoker.executeCommand, Command.execute] at hok ⊢
    cases hce : eng.createNode repository with
    | error err =>
      rw [hce] at hok
      simp at hok
    | ok conn =>
      simp [IpfsConnector.isReady]
  · intro hr
    exact processLines_ready_mono eng lines st hr

/-- Witness for C5: a concrete successful config makes the handle ready, and
it stays ready across a concrete follow-up input sequence. -/
theorem config_success_ready_persists_witness :
    (handleIpfsCommand okEngine "config /repo" startState.handle startState.invoker).2.1.isReady
        = true ∧
    (processLines okEngine stConfigured ["add ./f.txt", "nonsense", "get c /o"]).handle.isReady
        = true :=
  ⟨(config_success_ready_persists okEngine "config /repo" startState []).1 "/repo" []
      (by decide) (by decide),
   (config_success_ready_persists okEngine "config /repo" stConfigured
      ["add ./f.txt", "nonsense", "get c /o"]).2 (by decide)⟩

end GoShare
